import Mathlib

/-!
Verification development for the candle synchronization and cache engine of
`src/proxy/mexc_spot.py` (class `MexcSpotProxy`).

Shallow embedding notes.

* A pandas `DataFrame` holding one candle series is modelled as a `List Row`
  in index order.  The `open_datetime` index produced by
  `pd.to_datetime(x, unit=...)` is modelled by its numeric value in
  milliseconds: `unit='ms'` maps timestamp `t` to index value `t`, while
  `unit='s'` maps `t` to index value `1000 * t` (pandas stores nanoseconds;
  only the ratio between the two units matters, so milliseconds are used to
  keep numbers small).
* `astype('float')` applied to a column of raw strings is modelled by
  tagging the value as float-coerced (`Val.float s`) as opposed to the raw
  stream value (`Val.raw s`); floating-point arithmetic itself is never
  performed by the proxy, only the presence or absence of the coercion is
  observable in the stored frames.
* `row.combine_first(df)` for a single fully-populated row (the only way the
  proxy calls it) keeps `df`'s rows at all other index values and lets the
  row's values win at its own index value, with the resulting index sorted;
  the stored frames are always index-sorted, and `combineFirst` below is the
  insert-or-replace operation on such a sorted frame.
* `df.tail(n)` is the suffix of the last `n` rows.
* The `self.__data` dict is modelled as an association list with unique keys
  (`storeFind` / `storeSet`), and `self.__symbols_config` likewise.
* Python `KeyError` on `self.__data[key]` in `get_candles` is modelled by an
  explicit `GetCandlesResult.keyError` outcome, distinct from the
  `ServiceResult` failures (`success=False` with `INVALID_SYMBOL` /
  `INVALID_TIMEFRAME`) which are modelled by `invalidSymbol` /
  `invalidTimeframe`, and from the success case `ok`.
-/

namespace MexcSpotProxy

/-- Value stored in a numeric column of a candle frame: either the raw
string taken unchanged from a stream message, or a string that went through
`astype('float')` during `__parse_dataframe`. -/
inductive Val where
  | raw (s : String)
  | float (s : String)
deriving DecidableEq, Repr

/-- One row of a stored candle frame, in the column layout fixed by
`__parse_dataframe` / `__handle_data_event`: the `open_datetime` index
(modelled in milliseconds, see the file header) plus the columns
`open_timestamp, open, high, low, close, volume`.  The Python column name
`open` is a Lean keyword, hence the field name `open_`. -/
structure Row where
  open_datetime : Nat
  open_timestamp : Nat
  open_ : Val
  high : Val
  low : Val
  close : Val
  volume : Val
deriving DecidableEq, Repr

/-- One raw kline record from the REST history endpoint, after
`__fetch_kline` drops columns 6 and 7: open timestamp (milliseconds,
source-native) and the five numeric fields as delivered. -/
structure RawKline where
  t : Nat
  o : String
  h : String
  l : String
  c : String
  v : String
deriving DecidableEq, Repr

/-- The `msg['d']['k']` payload of one live kline stream message: open
timestamp in seconds (field `t`) and the five value fields as received. -/
structure Kline where
  t : Nat
  o : String
  h : String
  l : String
  c : String
  v : String
deriving DecidableEq, Repr

/-- Embedding of `__parse_dataframe` (lines 62-78): rename columns, derive
the `open_datetime` index via `pd.to_datetime(open_timestamp, unit='ms')`
(index value `t` in model milliseconds), coerce the five value columns with
`astype('float')`, and keep the column order
`open_timestamp, open, high, low, close, volume`.  Row order is preserved;
nothing is sorted or trimmed. -/
def parse_dataframe (klines : List RawKline) : List Row :=
  klines.map fun k =>
    { open_datetime := k.t
      open_timestamp := k.t
      open_ := Val.float k.o
      high := Val.float k.h
      low := Val.float k.l
      close := Val.float k.c
      volume := Val.float k.v }

/-- The single-row frame built in `__handle_data_event` (lines 132-142):
`open_datetime` comes from `pd.to_datetime(kline['t'], unit='s')` (index
value `1000 * t` in model milliseconds) and the five value fields are stored
exactly as received from the message, with no `astype` coercion. -/
def liveRow (kl : Kline) : Row :=
  { open_datetime := 1000 * kl.t
    open_timestamp := kl.t
    open_ := Val.raw kl.o
    high := Val.raw kl.h
    low := Val.raw kl.l
    close := Val.raw kl.c
    volume := Val.raw kl.v }

/-- Embedding of `df.tail(n)`: the last `n` rows of the frame. -/
def tail (n : Nat) (df : List Row) : List Row :=
  df.drop (df.length - n)

/-- Embedding of `row.combine_first(df)` for the single fully-populated
`row` built in `__handle_data_event`, on an index-sorted duplicate-free
frame `df` (the only shape the proxy stores): the result is `df` with `r`
inserted at its index position, replacing the existing row when the index
value is already present (every field of `r` is non-null, so `r`'s values
win wholesale at that index). -/
def combineFirst (r : Row) (df : List Row) : List Row :=
  match df with
  | [] => [r]
  | x :: xs =>
    if r.open_datetime < x.open_datetime then r :: x :: xs
    else if r.open_datetime = x.open_datetime then r :: xs
    else x :: combineFirst r xs

/-- A series key `(symbol, timeframe)` of the `self.__data` dict. -/
abbrev SeriesKey := String × String

/-- The `self.__data` dict, as an association list with unique keys. -/
abbrev Store := List (SeriesKey × List Row)

/-- Dict lookup `self.__data[key]` / `key in self.__data`. -/
def storeFind (d : Store) (k : SeriesKey) : Option (List Row) :=
  match d with
  | [] => none
  | (k', v) :: rest => if k = k' then some v else storeFind rest k

/-- Dict assignment `self.__data[key] = v` (replaces the entry when the key
is present, appends it otherwise). -/
def storeSet (d : Store) (k : SeriesKey) (v : List Row) : Store :=
  match d with
  | [] => [(k, v)]
  | (k', v') :: rest =>
    if k = k' then (k, v) :: rest else (k', v') :: storeSet rest k v

/-- The per-series effect of `__handle_data_event` (lines 144-149): if a
frame is stored for the key, `row.combine_first(df).tail(500)`, else a
fresh single-row frame. -/
def merge_step (df? : Option (List Row)) (kl : Kline) : List Row :=
  match df? with
  | some df => tail 500 (combineFirst (liveRow kl) df)
  | none => [liveRow kl]

/-- The `candle` dict pushed to `self.__push_data_event_func` at lines
151-154: the five value fields exactly as received from the message, the
open timestamp, and the seconds-unit datetime (its `str(...)` textual
serialization is not modelled; the datetime value is carried). -/
structure PushedCandle where
  open_timestamp : Nat
  open_datetime : Nat
  open_ : String
  high : String
  low : String
  close : String
  volume : String
deriving DecidableEq, Repr

/-- The candle dict as pushed for a given stream kline. -/
def pushedCandle (kl : Kline) : PushedCandle :=
  { open_timestamp := kl.t
    open_datetime := 1000 * kl.t
    open_ := kl.o
    high := kl.h
    low := kl.l
    close := kl.c
    volume := kl.v }

/-- Embedding of `__handle_data_event` (lines 123-154) after the channel
string has been split and the interval translated to a timeframe (lines
125-129, see `get_timeframe_from_socket_interval`): merge the live candle
into the series for `(symbol, timeframe)` and push the candle dict to the
event sink. -/
def handle_data_event (d : Store) (symbol timeframe : String) (kl : Kline) :
    Store × PushedCandle :=
  (storeSet d (symbol, timeframe) (merge_step (storeFind d (symbol, timeframe)) kl),
    pushedCandle kl)

/-- The seeding assignment `self.__data[(symbol, timeframe)] = df` performed
for each configured pair by `__prepare_historical_data` (line 47), with `df`
the parsed batch; no trimming is applied. -/
def seed (d : Store) (k : SeriesKey) (klines : List RawKline) : Store :=
  storeSet d k (parse_dataframe klines)

/-- Folding a sequence of live merges into one series, starting from the
currently stored frame (or `none` for a fresh key): each step applies
`merge_step` and stores the result. -/
def seriesAfter (init : Option (List Row)) (ks : List Kline) : Option (List Row) :=
  ks.foldl (fun df? k => some (merge_step df? k)) init

/-- Iterating `__handle_data_event` for one series key over a list of live
klines, at the store level. -/
def mergeAll (d : Store) (key : SeriesKey) (ks : List Kline) : Store :=
  ks.foldl (fun d' k => (handle_data_event d' key.1 key.2 k).1) d

/-- The `self.__symbols_config` dict: canonical symbol mapped to the pair
`(timeframes, aliases)`. -/
abbrev SymbolsConfig := List (String × (List String × List String))

/-- Embedding of `__get_symbol_config` (lines 207-218): exact match against
the canonical symbols (dict membership) first, then a scan of the configs
in order returning the first whose alias list contains the name; `(None,
None)` — here `none` — when nothing matches. -/
def get_symbol_config (cfg : SymbolsConfig) (symbol_name : String) :
    Option (String × (List String × List String)) :=
  match cfg.find? (fun p => p.1 == symbol_name) with
  | some p => some (symbol_name, p.2)
  | none =>
    match cfg.find? (fun p => p.2.2.contains symbol_name) with
    | some p => some (p.1, p.2)
    | none => none

/-- Outcome of `get_candles`: the two `ServiceResult` failures
(`success=False` with `INVALID_SYMBOL` / `INVALID_TIMEFRAME`), the Python
`KeyError` escaping from `self.__data[key]` when no series is stored for the
key, or the returned frame. -/
inductive GetCandlesResult where
  | invalidSymbol
  | invalidTimeframe
  | keyError (k : SeriesKey)
  | ok (rows : List Row)
deriving DecidableEq, Repr

/-- The rows of an `ok` outcome (empty for the failure outcomes). -/
def getRows : GetCandlesResult → List Row
  | GetCandlesResult.ok rows => rows
  | _ => []

/-- Embedding of `get_candles` (lines 221-245): resolve the symbol
(`InvalidSymbol` on failure), check the timeframe against the resolved
config (`InvalidTimeframe` on failure), then `self.__data[key]` — a
`KeyError` when the key has no series — and return `tail(count)` of the
stored frame (the `copy` / `reset_index` / column reorder keep exactly these
rows). -/
def get_candles (cfg : SymbolsConfig) (d : Store) (symbol_name timeframe : String)
    (count : Nat) : GetCandlesResult :=
  match get_symbol_config cfg symbol_name with
  | none => GetCandlesResult.invalidSymbol
  | some (config_key, sc) =>
    if timeframe ∈ sc.1 then
      match storeFind d (config_key, timeframe) with
      | none => GetCandlesResult.keyError (config_key, timeframe)
      | some df => GetCandlesResult.ok (tail count df)
    else GetCandlesResult.invalidTimeframe

/-- The `timeframe_to_interval` dict of
`__get_socket_interval_from_timeframe` (lines 175-184). -/
def timeframe_to_interval : List (String × String) :=
  [("1m", "Min1"), ("5m", "Min5"), ("15m", "Min15"), ("30m", "Min30"),
   ("60m", "Min60"), ("4h", "Hour4"), ("1d", "Day1"), ("1M", "Month1")]

/-- The `interval_to_timeframe` dict of
`__get_timeframe_from_socket_interval` (lines 190-199). -/
def interval_to_timeframe : List (String × String) :=
  [("Min1", "1m"), ("Min5", "5m"), ("Min15", "15m"), ("Min30", "30m"),
   ("Min60", "60m"), ("Hour4", "4h"), ("Day1", "1d"), ("Month1", "1M")]

/-- Embedding of `__get_socket_interval_from_timeframe` (lines 173-186);
the Python dict lookup raises `KeyError` outside the vocabulary, hence
`Option`. -/
def get_socket_interval_from_timeframe (timeframe : String) : Option String :=
  (timeframe_to_interval.find? (fun p => p.1 == timeframe)).map (fun p => p.2)

/-- Embedding of `__get_timeframe_from_socket_interval` (lines 188-201). -/
def get_timeframe_from_socket_interval (interval : String) : Option String :=
  (interval_to_timeframe.find? (fun p => p.1 == interval)).map (fun p => p.2)

/-- The 8-value timeframe vocabulary. -/
def timeframe_vocabulary : List String :=
  ["1m", "5m", "15m", "30m", "60m", "4h", "1d", "1M"]

/-- Observable startup events of `__prepare_historical_data` followed by
`__connect_to_data_streams`: seeding a series, and issuing a kline
subscription (the subscribe carries the codec-translated interval). -/
inductive Event where
  | seed (symbol timeframe : String)
  | subscribe (symbol : String) (interval : Option String)
deriving DecidableEq, Repr

/-- The event trace issued by `__prepare_historical_data` (lines 40-49): one
seed per configured `(symbol, timeframe)` pair, in configuration order, each
awaited in sequence, and only then — via the awaited call to
`__connect_to_data_streams` (lines 84-105) — one subscribe request per pair. -/
def prepareTrace (cfg : SymbolsConfig) : List Event :=
  (cfg.flatMap fun p => p.2.1.map fun tf => Event.seed p.1 tf) ++
    (cfg.flatMap fun p =>
      p.2.1.map fun tf => Event.subscribe p.1 (get_socket_interval_from_timeframe tf))

/-- A frame is index-sorted: strictly ascending `open_datetime` (this is the
shape `combine_first` maintains and pandas relies on). -/
abbrev IndexSorted (df : List Row) : Prop :=
  df.Pairwise fun a b => a.open_datetime < b.open_datetime

/-! ### Helper lemmas about the frame operations -/

theorem mem_combineFirst {x r : Row} {df : List Row}
    (h : x ∈ combineFirst r df) : x = r ∨ x ∈ df := by
  induction df with
  | nil => simpa [combineFirst] using h
  | cons a rest ih =>
    rw [combineFirst] at h
    split at h
    · rcases List.mem_cons.1 h with h' | h'
      · exact Or.inl h'
      · exact Or.inr h'
    · split at h
      · rcases List.mem_cons.1 h with h' | h'
        · exact Or.inl h'
        · exact Or.inr (List.mem_cons_of_mem _ h')
      · rcases List.mem_cons.1 h with h' | h'
        · exact Or.inr (h' ▸ List.mem_cons_self _ _)
        · rcases ih h' with h'' | h''
          · exact Or.inl h''
          · exact Or.inr (List.mem_cons_of_mem _ h'')

theorem combineFirst_indexSorted {r : Row} {df : List Row}
    (h : IndexSorted df) : IndexSorted (combineFirst r df) := by
  induction df with
  | nil => simp [combineFirst]
  | cons a rest ih =>
    obtain ⟨ha, hrest⟩ := List.pairwise_cons.1 h
    rw [combineFirst]
    split
    · rename_i hlt
      refine List.pairwise_cons.2 ⟨?_, List.pairwise_cons.2 ⟨ha, hrest⟩⟩
      intro x hx
      rcases List.mem_cons.1 hx with rfl | hx'
      · omega
      · exact lt_trans hlt (ha x hx')
    · split
      · rename_i hne heq
        refine List.pairwise_cons.2 ⟨?_, hrest⟩
        intro x hx
        have := ha x hx
        omega
      · rename_i hne1 hne2
        refine List.pairwise_cons.2 ⟨?_, ih hrest⟩
        intro x hx
        rcases mem_combineFirst hx with h' | h'
        · subst h'; omega
        · exact ha x h'

theorem tail_sublist (n : Nat) (df : List Row) : (tail n df).Sublist df :=
  List.drop_sublist _ _

theorem tail_suffix (n : Nat) (df : List Row) : (tail n df).IsSuffix df :=
  List.drop_suffix _ _

theorem tail_length_le (n : Nat) (df : List Row) : (tail n df).length ≤ n := by
  simp only [tail, List.length_drop]
  omega

theorem tail_eq_of_le {n : Nat} {df : List Row} (h : df.length ≤ n) :
    tail n df = df := by
  simp only [tail, Nat.sub_eq_zero_of_le h, List.drop_zero]

theorem tail_indexSorted {n : Nat} {df : List Row} (h : IndexSorted df) :
    IndexSorted (tail n df) :=
  h.sublist (tail_sublist n df)

theorem combineFirst_of_forall_lt {r : Row} {df : List Row}
    (h : ∀ x ∈ df, x.open_datetime < r.open_datetime) :
    combineFirst r df = df ++ [r] := by
  induction df with
  | nil => simp [combineFirst]
  | cons a rest ih =>
    have ha := h a (List.mem_cons_self _ _)
    rw [combineFirst, if_neg (by omega), if_neg (by omega)]
    simp only [List.cons_append, List.cons.injEq, true_and]
    exact ih fun x hx => h x (List.mem_cons_of_mem _ hx)

theorem combineFirst_replace {r r0 : Row} {df : List Row}
    (hs : IndexSorted df) (hmem : r0 ∈ df)
    (heq : r0.open_datetime = r.open_datetime) :
    combineFirst r df =
      df.map fun x => if x.open_datetime = r.open_datetime then r else x := by
  induction df with
  | nil => cases hmem
  | cons a rest ih =>
    obtain ⟨ha, hrest⟩ := List.pairwise_cons.1 hs
    rw [combineFirst]
    rcases List.mem_cons.1 hmem with rfl | hmem'
    · have hne : ∀ x ∈ rest, ¬ x.open_datetime = r.open_datetime := by
        intro x hx
        have := ha x hx
        omega
      rw [if_neg (by omega), if_pos heq.symm, List.map_cons, if_pos heq,
        List.map_congr_left fun x hx => if_neg (hne x hx), List.map_id']
    · have har0 := ha r0 hmem'
      rw [if_neg (by omega), if_neg (by omega), List.map_cons,
        if_neg (by omega : ¬ a.open_datetime = r.open_datetime), ih hrest hmem']

theorem storeFind_storeSet_self (d : Store) (k : SeriesKey) (v : List Row) :
    storeFind (storeSet d k v) k = some v := by
  induction d with
  | nil => simp [storeSet, storeFind]
  | cons p rest ih =>
    obtain ⟨k', v'⟩ := p
    by_cases h : k = k'
    · simp [storeSet, storeFind, h]
    · simp [storeSet, storeFind, h, ih]

theorem handle_data_event_fst (d : Store) (symbol timeframe : String) (kl : Kline) :
    (handle_data_event d symbol timeframe kl).1 =
      storeSet d (symbol, timeframe)
        (merge_step (storeFind d (symbol, timeframe)) kl) := rfl

theorem storeFind_mergeAll (d : Store) (key : SeriesKey) (ks : List Kline) :
    storeFind (mergeAll d key ks) key = seriesAfter (storeFind d key) ks := by
  induction ks generalizing d with
  | nil => rfl
  | cons k rest ih =>
    have h1 : mergeAll d key (k :: rest) =
        mergeAll (handle_data_event d key.1 key.2 k).1 key rest := rfl
    have h2 : storeFind (handle_data_event d key.1 key.2 k).1 key =
        some (merge_step (storeFind d key) k) := by
      rw [handle_data_event_fst]
      exact storeFind_storeSet_self _ _ _
    rw [h1, ih, h2]
    rfl

theorem seriesAfter_concat (init : Option (List Row)) (ks : List Kline) (k : Kline) :
    seriesAfter init (ks ++ [k]) = some (merge_step (seriesAfter init ks) k) := by
  simp [seriesAfter, List.foldl_append]

theorem tail_tail_append_one {n : Nat} (hn : 1 ≤ n) (xs : List Row) (r : Row) :
    tail n (tail n xs ++ [r]) = tail n (xs ++ [r]) := by
  by_cases h : xs.length ≤ n
  · rw [tail_eq_of_le h]
  · have hx : (tail n xs).length = n := by
      simp only [tail, List.length_drop]; omega
    have h1 : tail n (tail n xs ++ [r]) = (tail n xs).drop 1 ++ [r] := by
      rw [show tail n (tail n xs ++ [r]) =
          (tail n xs ++ [r]).drop ((tail n xs ++ [r]).length - n) from rfl]
      rw [List.length_append, hx, List.length_cons, List.length_nil,
        show n + (0 + 1) - n = 1 by omega,
        List.drop_append_of_le_length (by omega)]
    have h2 : tail n (xs ++ [r]) = xs.drop (xs.length + 1 - n) ++ [r] := by
      rw [show tail n (xs ++ [r]) = (xs ++ [r]).drop ((xs ++ [r]).length - n) from rfl]
      rw [List.length_append, List.length_cons, List.length_nil,
        show xs.length + (0 + 1) - n = xs.length + 1 - n by omega,
        List.drop_append_of_le_length (by omega)]
    rw [h1, h2]
    show (xs.drop (xs.length - n)).drop 1 ++ [r] = _
    rw [List.drop_drop]
    congr 2
    omega

theorem merge_step_indexSorted {df? : Option (List Row)} {kl : Kline}
    (h : ∀ s, df? = some s → IndexSorted s) :
    IndexSorted (merge_step df? kl) := by
  cases df? with
  | none => simp [merge_step]
  | some df => exact tail_indexSorted (combineFirst_indexSorted (h df rfl))

theorem seriesAfter_indexSorted {init : Option (List Row)} {ks : List Kline}
    (h : ∀ s, init = some s → IndexSorted s) :
    ∀ s, seriesAfter init ks = some s → IndexSorted s := by
  induction ks generalizing init with
  | nil => exact fun s hs => h s hs
  | cons k rest ih =>
    simp only [seriesAfter, List.foldl_cons]
    exact ih fun s hs => by
      cases hs
      exact merge_step_indexSorted h

theorem seriesAfter_none_eq_tail {ks : List Kline} (hne : ks ≠ [])
    (hinc : ks.Pairwise fun a b => a.t < b.t) :
    seriesAfter none ks = some (tail 500 (ks.map liveRow)) := by
  induction ks using List.reverseRecOn with
  | nil => cases hne rfl
  | append_singleton ks k ih =>
    rw [seriesAfter_concat]
    obtain ⟨hks, -, hlast⟩ := List.pairwise_append.1 hinc
    cases ks with
    | nil =>
      rw [List.nil_append, List.map_cons, List.map_nil,
        tail_eq_of_le (by simp : ([liveRow k] : List Row).length ≤ 500)]
      rfl
    | cons k0 rest =>
      rw [ih (by simp) hks]
      have hall : ∀ x ∈ tail 500 ((k0 :: rest).map liveRow),
          x.open_datetime < (liveRow k).open_datetime := by
        intro x hx
        have hx' := (tail_sublist _ _).mem hx
        obtain ⟨a, ha, rfl⟩ := List.mem_map.1 hx'
        have := hlast a ha k (List.mem_singleton_self _)
        show 1000 * a.t < 1000 * k.t
        omega
      show some (tail 500 (combineFirst (liveRow k) _)) = _
      rw [combineFirst_of_forall_lt hall,
        tail_tail_append_one (by omega) ((k0 :: rest).map liveRow) (liveRow k),
        List.map_append]
      rfl

/-! ### Claim theorems -/

/-- C8: for every timeframe in the 8-value vocabulary, translating to the
upstream interval code (`__get_socket_interval_from_timeframe`) and back
(`__get_timeframe_from_socket_interval`) returns the original timeframe, and
in particular the interval code of "1d" is "Day1". -/
theorem c8_codec_roundtrip (tf : String) (h : tf ∈ timeframe_vocabulary) :
    (get_socket_interval_from_timeframe tf).bind get_timeframe_from_socket_interval =
      some tf ∧
    get_socket_interval_from_timeframe "1d" = some "Day1" := by
  refine ⟨?_, rfl⟩
  fin_cases h <;> rfl

/-- Witness for C8, instantiated at the timeframe "1d". -/
theorem c8_codec_roundtrip_witness :
    (get_socket_interval_from_timeframe "1d").bind get_timeframe_from_socket_interval =
      some "1d" ∧
    get_socket_interval_from_timeframe "1d" = some "Day1" :=
  c8_codec_roundtrip "1d" (by decide)

/-- C5: `get_candles` with a name matching no canonical symbol and no alias
returns the `INVALID_SYMBOL` ServiceResult failure, and with a resolvable
symbol but an unconfigured timeframe the `INVALID_TIMEFRAME` failure; both
are normal returns (the `invalidSymbol` / `invalidTimeframe` outcomes),
never the raising outcome (`keyError`). -/
theorem c5_typed_failures (cfg : SymbolsConfig) (d : Store) (name tf : String)
    (count : Nat) :
    ((∀ p ∈ cfg, ¬ p.1 = name ∧ name ∉ p.2.2) →
      get_candles cfg d name tf count = GetCandlesResult.invalidSymbol) ∧
    (∀ k tfs als, get_symbol_config cfg name = some (k, (tfs, als)) → tf ∉ tfs →
      get_candles cfg d name tf count = GetCandlesResult.invalidTimeframe) := by
  constructor
  · intro h
    have h1 : cfg.find? (fun p => p.1 == name) = none :=
      List.find?_eq_none.2 fun p hp => by simpa using (h p hp).1
    have h2 : cfg.find? (fun p => p.2.2.contains name) = none :=
      List.find?_eq_none.2 fun p hp => by simpa using (h p hp).2
    have hres : get_symbol_config cfg name = none := by
      unfold get_symbol_config
      rw [h1, h2]
    unfold get_candles
    rw [hres]
  · intro k tfs als hres htf
    simp [get_candles, hres, htf]

/-- Witness for C5: an unknown name yields `invalidSymbol`; an alias of a
configured symbol with an unconfigured timeframe yields `invalidTimeframe`. -/
theorem c5_typed_failures_witness :
    get_candles [("BTCUSDT", (["1m"], ["XBT"]))] [] "unknown" "1m" 10 =
      GetCandlesResult.invalidSymbol ∧
    get_candles [("BTCUSDT", (["1m"], ["XBT"]))] [] "XBT" "2m" 10 =
      GetCandlesResult.invalidTimeframe :=
  ⟨(c5_typed_failures [("BTCUSDT", (["1m"], ["XBT"]))] [] "unknown" "1m" 10).1
      (by decide),
   (c5_typed_failures [("BTCUSDT", (["1m"], ["XBT"]))] [] "XBT" "2m" 10).2
      "BTCUSDT" ["1m"] ["XBT"] (by decide) (by decide)⟩

/-- C4 counterexample: a resolvable symbol with a configured timeframe whose
key has no stored series makes `get_candles` raise `KeyError` (the
`self.__data[key]` subscript), not return an empty result. -/
theorem c4_counterexample :
    get_candles [("BTCUSDT", (["1m"], []))] [] "BTCUSDT" "1m" 10 =
      GetCandlesResult.keyError ("BTCUSDT", "1m") ∧
    get_candles [("BTCUSDT", (["1m"], []))] [] "BTCUSDT" "1m" 10 ≠
      GetCandlesResult.ok [] := by
  decide

/-- C4 (amended): with a resolvable symbol and configured timeframe,
`get_candles` raises `KeyError` when the key has no series in the store, and
when the stored series is shorter than `count` it returns all of its
entries. -/
theorem c4_missing_key_and_short_series (cfg : SymbolsConfig) (d : Store)
    (name tf k : String) (tfs als : List String) (count : Nat)
    (hres : get_symbol_config cfg name = some (k, (tfs, als))) (htf : tf ∈ tfs) :
    (storeFind d (k, tf) = none →
      get_candles cfg d name tf count = GetCandlesResult.keyError (k, tf)) ∧
    (∀ s, storeFind d (k, tf) = some s → s.length ≤ count →
      get_candles cfg d name tf count = GetCandlesResult.ok s) := by
  constructor
  · intro h
    simp [get_candles, hres, htf, h]
  · intro s hs hlen
    simp [get_candles, hres, htf, hs, tail_eq_of_le hlen]

/-- Witness for C4 (amended): a one-row series with `count = 10` is returned
in full. -/
theorem c4_missing_key_and_short_series_witness :
    get_candles [("BTCUSDT", (["1m"], []))]
      [(("BTCUSDT", "1m"), parse_dataframe [⟨100, "1", "2", "0.5", "1.5", "10"⟩])]
      "BTCUSDT" "1m" 10 =
      GetCandlesResult.ok (parse_dataframe [⟨100, "1", "2", "0.5", "1.5", "10"⟩]) :=
  (c4_missing_key_and_short_series [("BTCUSDT", (["1m"], []))]
      [(("BTCUSDT", "1m"), parse_dataframe [⟨100, "1", "2", "0.5", "1.5", "10"⟩])]
      "BTCUSDT" "1m" "BTCUSDT" ["1m"] [] 10 (by decide) (by decide)).2
    (parse_dataframe [⟨100, "1", "2", "0.5", "1.5", "10"⟩]) (by decide) (by decide)

/-- C3 counterexample: seeding (`__prepare_historical_data` line 47) stores
the parsed batch without trimming, so a 501-record batch leaves a 501-entry
series — the 500 bound does not hold after every seed. -/
theorem c3_counterexample :
    (storeFind (seed [] ("BTCUSDT", "1m")
        ((List.range 501).map fun i => ⟨i, "1", "2", "0.5", "1.5", "10"⟩))
        ("BTCUSDT", "1m")).map List.length = some 501 ∧
    ¬ (501 ≤ 500) := by
  constructor
  · rw [seed, storeFind_storeSet_self]
    simp [parse_dataframe]
  · omega

/-- C3 (amended): the 500 bound with oldest-first eviction holds after every
live merge for the merged key (the stored series is the at-most-500-entry
suffix — newest entries — of the combined frame), but seeding installs the
fetched batch unbounded, so the bound holds after a seed only when the batch
itself has at most 500 records. -/
theorem c3_merge_bound (d : Store) (symbol timeframe : String) (kl : Kline) :
    ∃ s, storeFind (handle_data_event d symbol timeframe kl).1 (symbol, timeframe) =
        some s ∧
      s.length ≤ 500 ∧
      s.IsSuffix (combineFirst (liveRow kl)
        ((storeFind d (symbol, timeframe)).getD [])) := by
  refine ⟨merge_step (storeFind d (symbol, timeframe)) kl, ?_, ?_, ?_⟩
  · rw [handle_data_event_fst]
    exact storeFind_storeSet_self _ _ _
  · cases h : storeFind d (symbol, timeframe) with
    | none => simp [merge_step]
    | some df => exact tail_length_le _ _
  · cases h : storeFind d (symbol, timeframe) with
    | none => simp [merge_step, combineFirst]
    | some df => exact tail_suffix _ _

/-- C1 counterexample: the seeded series holds an entry with open_timestamp
100 (ms-unit index 100); merging a live candle with the same open_timestamp
100 (s-unit index 100000) inserts a second row instead of replacing the
stored one, and the series length grows from 1 to 2. -/
theorem c1_counterexample :
    (∃ r ∈ parse_dataframe [⟨100, "1", "2", "0.5", "1.5", "10"⟩],
      r.open_timestamp = (⟨100, "1", "2", "0.5", "1.6", "11"⟩ : Kline).t) ∧
    (parse_dataframe [⟨100, "1", "2", "0.5", "1.5", "10"⟩]).length = 1 ∧
    (merge_step (some (parse_dataframe [⟨100, "1", "2", "0.5", "1.5", "10"⟩]))
      ⟨100, "1", "2", "0.5", "1.6", "11"⟩).length = 2 := by
  decide

/-- C1 (amended): full replacement with unchanged length happens exactly
when the series, within the 500 bound, already holds an entry at the live
candle's derived open_datetime index (the seconds-unit index `1000 * t`,
i.e. an entry written by a previous live merge of the same timestamp): the
merge maps that entry to the incoming candle's row wholesale and keeps every
other entry. An entry sharing only the numeric open_timestamp — a seeded
row, whose index used the ms unit — is not replaced (see the
counterexample). -/
theorem c1_replace_same_index (df : List Row) (kl : Kline) (r0 : Row)
    (hs : IndexSorted df) (hlen : df.length ≤ 500) (hmem : r0 ∈ df)
    (hdt : r0.open_datetime = (liveRow kl).open_datetime) :
    merge_step (some df) kl =
      df.map (fun x =>
        if x.open_datetime = (liveRow kl).open_datetime then liveRow kl else x) ∧
    (merge_step (some df) kl).length = df.length := by
  have hrepl := combineFirst_replace (r := liveRow kl) hs hmem hdt
  have hlen2 : (combineFirst (liveRow kl) df).length = df.length := by
    rw [hrepl, List.length_map]
  constructor
  · show tail 500 (combineFirst (liveRow kl) df) = _
    rw [tail_eq_of_le (by omega), hrepl]
  · show (tail 500 (combineFirst (liveRow kl) df)).length = df.length
    rw [tail_eq_of_le (by omega), hlen2]

/-- Witness for C1 (amended): merging onto a one-entry series written by a
previous live merge of the same timestamp keeps the length at 1. -/
theorem c1_replace_same_index_witness :
    (merge_step (some [liveRow ⟨100, "1", "2", "0.5", "1.5", "10"⟩])
      ⟨100, "1", "2", "0.5", "1.6", "11"⟩).length =
      [liveRow ⟨100, "1", "2", "0.5", "1.5", "10"⟩].length :=
  (c1_replace_same_index [liveRow ⟨100, "1", "2", "0.5", "1.5", "10"⟩]
    ⟨100, "1", "2", "0.5", "1.6", "11"⟩ (liveRow ⟨100, "1", "2", "0.5", "1.5", "10"⟩)
    (by decide) (by decide) (by decide) (by decide)).2

/-- C2 counterexample: seed at timestamp 100 (ms-unit index 100), then merge
a live candle at timestamp 100 (s-unit index 100000): `get_candles` returns
two entries both carrying open_timestamp 100 — neither strictly ascending by
open_timestamp nor duplicate-free. -/
theorem c2_counterexample :
    (getRows (get_candles [("BTCUSDT", (["1m"], []))]
        (mergeAll (seed [] ("BTCUSDT", "1m") [⟨100, "1", "2", "0.5", "1.5", "10"⟩])
          ("BTCUSDT", "1m") [⟨100, "1", "2", "0.5", "1.6", "11"⟩])
        "BTCUSDT" "1m" 10)).map Row.open_timestamp = [100, 100] ∧
    ¬ (getRows (get_candles [("BTCUSDT", (["1m"], []))]
        (mergeAll (seed [] ("BTCUSDT", "1m") [⟨100, "1", "2", "0.5", "1.5", "10"⟩])
          ("BTCUSDT", "1m") [⟨100, "1", "2", "0.5", "1.6", "11"⟩])
        "BTCUSDT" "1m" 10)).Pairwise
      (fun a b => a.open_timestamp < b.open_timestamp) := by
  decide

/-- C2 (amended): after seeding with a batch whose timestamps ascend
strictly and then applying any sequence of live merges, the stored series is
strictly ascending and duplicate-free by the open_datetime index — but not
by open_timestamp, which the counterexample refutes — and every window
(`tail count`, as `get_candles` returns) inherits this. -/
theorem c2_index_sorted (raws : List RawKline) (ks : List Kline)
    (hraws : raws.Pairwise fun a b => a.t < b.t) :
    ∀ s, seriesAfter (some (parse_dataframe raws)) ks = some s →
      IndexSorted s ∧ ∀ count, IndexSorted (tail count s) := by
  have hinit : IndexSorted (parse_dataframe raws) := by
    rw [parse_dataframe]
    exact List.pairwise_map.2 hraws
  intro s hs
  have hsort := seriesAfter_indexSorted (fun s' h' => by cases h'; exact hinit) s hs
  exact ⟨hsort, fun count => tail_indexSorted hsort⟩

/-- Witness for C2 (amended): a two-entry ascending seed followed by one
live merge stays sorted by the index. -/
theorem c2_index_sorted_witness :
    IndexSorted (merge_step
      (some (parse_dataframe
        [⟨100, "1", "2", "0.5", "1.5", "10"⟩, ⟨200, "2", "3", "1", "2.5", "20"⟩]))
      ⟨300, "2", "3", "1", "2.6", "30"⟩) :=
  (c2_index_sorted
    [⟨100, "1", "2", "0.5", "1.5", "10"⟩, ⟨200, "2", "3", "1", "2.5", "20"⟩]
    [⟨300, "2", "3", "1", "2.6", "30"⟩] (by decide)
    (merge_step
      (some (parse_dataframe
        [⟨100, "1", "2", "0.5", "1.5", "10"⟩, ⟨200, "2", "3", "1", "2.5", "20"⟩]))
      ⟨300, "2", "3", "1", "2.6", "30"⟩) rfl).1

/-- C7: starting from a fresh (absent) key, 501 live merges with strictly
increasing timestamps leave the series holding exactly the 500 entries with
the largest timestamps (every merge's index uses the same seconds unit, so
index order is timestamp order: the result drops only the oldest of the 501
candles). -/
theorem c7_fresh_key_501_merges (d : Store) (key : SeriesKey) (ks : List Kline)
    (hfresh : storeFind d key = none) (hlen : ks.length = 501)
    (hinc : ks.Pairwise fun a b => a.t < b.t) :
    storeFind (mergeAll d key ks) key = some ((ks.map liveRow).drop 1) ∧
    ((ks.map liveRow).drop 1).length = 500 := by
  have hne : ks ≠ [] := by
    intro h
    rw [h] at hlen
    cases hlen
  rw [storeFind_mergeAll, hfresh, seriesAfter_none_eq_tail hne hinc]
  constructor
  · have : tail 500 (ks.map liveRow) = (ks.map liveRow).drop 1 := by
      rw [tail, List.length_map, hlen]
    rw [this]
  · rw [List.length_drop, List.length_map, hlen]

/-- Witness for C7: 501 klines at timestamps 0..500. -/
theorem c7_fresh_key_501_merges_witness :
    storeFind
      (mergeAll [] ("BTCUSDT", "1m")
        ((List.range 501).map fun i => ⟨i, "1", "2", "0.5", "1.5", "10"⟩))
      ("BTCUSDT", "1m") =
      some ((((List.range 501).map fun i =>
        (⟨i, "1", "2", "0.5", "1.5", "10"⟩ : Kline)).map liveRow).drop 1) :=
  (c7_fresh_key_501_merges [] ("BTCUSDT", "1m")
    ((List.range 501).map fun i => ⟨i, "1", "2", "0.5", "1.5", "10"⟩)
    rfl (by simp)
    (by
      rw [List.pairwise_map]
      exact List.pairwise_lt_range 501)).1

theorem find?_key_unique :
    ∀ (cfg : SymbolsConfig) (sym : String) (tfs als : List String),
      (sym, (tfs, als)) ∈ cfg →
      cfg.Pairwise (fun p q => p.1 ≠ q.1) →
      cfg.find? (fun p => p.1 == sym) = some (sym, (tfs, als)) := by
  intro cfg
  induction cfg with
  | nil =>
    intro sym tfs als hmem _
    cases hmem
  | cons q rest ih =>
    intro sym tfs als hmem hkeys
    obtain ⟨hq, hrest⟩ := List.pairwise_cons.1 hkeys
    rcases List.mem_cons.1 hmem with heq | hmem'
    · cases heq
      exact List.find?_cons_of_pos _ (by simp)
    · have hne : ¬ (q.1 == sym) = true := by
        simpa using hq _ hmem'
      rw [@List.find?_cons_of_neg _ (fun p => p.1 == sym) q rest hne]
      exact ih sym tfs als hmem' hrest

theorem find?_alias_unique :
    ∀ (cfg : SymbolsConfig) (sym : String) (tfs als : List String) (a : String),
      (sym, (tfs, als)) ∈ cfg →
      cfg.Pairwise (fun p q => p.1 ≠ q.1) →
      (∀ p ∈ cfg, a ∈ p.2.2 → p.1 = sym) →
      a ∈ als →
      cfg.find? (fun p => p.2.2.contains a) = some (sym, (tfs, als)) := by
  intro cfg
  induction cfg with
  | nil =>
    intro sym tfs als a hmem _ _ _
    cases hmem
  | cons q rest ih =>
    intro sym tfs als a hmem hkeys huniq ha
    obtain ⟨hq, hrest⟩ := List.pairwise_cons.1 hkeys
    rcases List.mem_cons.1 hmem with heq | hmem'
    · cases heq
      exact List.find?_cons_of_pos _ (by simpa using ha)
    · by_cases hqa : a ∈ q.2.2
      · have h1 : q.1 = sym := huniq q (List.mem_cons_self _ _) hqa
        exact absurd h1 (hq _ hmem')
      · rw [@List.find?_cons_of_neg _ (fun p => p.2.2.contains a) q rest
          (by simpa using hqa)]
        exact ih sym tfs als a hmem' hrest
          (fun p hp => huniq p (List.mem_cons_of_mem _ hp)) ha

/-- C9: for a configured canonical symbol and any of its aliases, resolving
the alias yields the same canonical symbol and the same timeframe set as
resolving the canonical name (`__get_symbol_config` tries the exact
canonical match first, then scans alias sets in configuration order), and a
name matching neither a canonical symbol nor an alias yields the `(None,
None)` negative result, not an exception.  Hypotheses: the dict keys are
distinct (guaranteed by the Python dict), the alias names no canonical
symbol, and — the registry invariant — no other config claims the alias. -/
theorem c9_alias_resolution (cfg : SymbolsConfig) (sym : String)
    (tfs als : List String) (a : String)
    (hmem : (sym, (tfs, als)) ∈ cfg)
    (hkeys : cfg.Pairwise fun p q => p.1 ≠ q.1)
    (hnotsym : ∀ p ∈ cfg, a ≠ p.1)
    (huniq : ∀ p ∈ cfg, a ∈ p.2.2 → p.1 = sym)
    (ha : a ∈ als) :
    get_symbol_config cfg a = some (sym, (tfs, als)) ∧
    get_symbol_config cfg sym = some (sym, (tfs, als)) ∧
    ∀ n, (∀ p ∈ cfg, n ≠ p.1 ∧ n ∉ p.2.2) → get_symbol_config cfg n = none := by
  refine ⟨?_, ?_, ?_⟩
  · have h1 : cfg.find? (fun p => p.1 == a) = none :=
      List.find?_eq_none.2 fun p hp => by
        simpa using (hnotsym p hp).symm
    have h2 := find?_alias_unique cfg sym tfs als a hmem hkeys huniq ha
    unfold get_symbol_config
    rw [h1, h2]
  · have h1 := find?_key_unique cfg sym tfs als hmem hkeys
    unfold get_symbol_config
    rw [h1]
  · intro n hn
    have h1 : cfg.find? (fun p => p.1 == n) = none :=
      List.find?_eq_none.2 fun p hp => by
        simpa using (hn p hp).1.symm
    have h2 : cfg.find? (fun p => p.2.2.contains n) = none :=
      List.find?_eq_none.2 fun p hp => by
        simpa using (hn p hp).2
    unfold get_symbol_config
    rw [h1, h2]

/-- Witness for C9: the alias "XBT" resolves exactly like "BTCUSDT", and an
unknown name resolves to the negative result. -/
theorem c9_alias_resolution_witness :
    get_symbol_config [("ETHUSDT", (["5m"], ["ETH"])),
        ("BTCUSDT", (["1m", "1d"], ["XBT", "BTC"]))] "XBT" =
      some ("BTCUSDT", (["1m", "1d"], ["XBT", "BTC"])) ∧
    get_symbol_config [("ETHUSDT", (["5m"], ["ETH"])),
        ("BTCUSDT", (["1m", "1d"], ["XBT", "BTC"]))] "BTCUSDT" =
      some ("BTCUSDT", (["1m", "1d"], ["XBT", "BTC"])) ∧
    get_symbol_config [("ETHUSDT", (["5m"], ["ETH"])),
        ("BTCUSDT", (["1m", "1d"], ["XBT", "BTC"]))] "unknown" = none := by
  have h := c9_alias_resolution
    [("ETHUSDT", (["5m"], ["ETH"])), ("BTCUSDT", (["1m", "1d"], ["XBT", "BTC"]))]
    "BTCUSDT" ["1m", "1d"] ["XBT", "BTC"] "XBT"
    (by decide) (by decide) (by decide) (by decide) (by decide)
  exact ⟨h.1, h.2.1, h.2.2 "unknown" (by decide)⟩

/-- C6: in the startup sequence of `__prepare_historical_data`, every seed
event precedes every subscribe event — all configured series are seeded
before `__connect_to_data_streams` issues any subscription, so no live merge
can be handled for a key that was not seeded first. -/
theorem c6_seed_before_subscribe (cfg : SymbolsConfig) (i j : Nat)
    (s tf s' : String) (iv : Option String)
    (hi : (prepareTrace cfg)[i]? = some (Event.seed s tf))
    (hj : (prepareTrace cfg)[j]? = some (Event.subscribe s' iv)) :
    i < j := by
  have hA : ∀ e ∈ (cfg.flatMap fun p => p.2.1.map fun tf' => Event.seed p.1 tf'),
      ∃ x y, e = Event.seed x y := by
    intro e he
    obtain ⟨p, -, he'⟩ := List.mem_flatMap.1 he
    obtain ⟨tf', -, rfl⟩ := List.mem_map.1 he'
    exact ⟨p.1, tf', rfl⟩
  have hB : ∀ e ∈ (cfg.flatMap fun p =>
        p.2.1.map fun tf' => Event.subscribe p.1 (get_socket_interval_from_timeframe tf')),
      ∃ x y, e = Event.subscribe x y := by
    intro e he
    obtain ⟨p, -, he'⟩ := List.mem_flatMap.1 he
    obtain ⟨tf', -, rfl⟩ := List.mem_map.1 he'
    exact ⟨p.1, get_socket_interval_from_timeframe tf', rfl⟩
  have hilt : i < (cfg.flatMap fun p => p.2.1.map fun tf' => Event.seed p.1 tf').length := by
    by_contra hge
    rw [prepareTrace, List.getElem?_append_right (by omega)] at hi
    obtain ⟨x, y, hxy⟩ := hB _ (List.getElem?_mem hi)
    cases hxy
  have hjge : (cfg.flatMap fun p => p.2.1.map fun tf' => Event.seed p.1 tf').length ≤ j := by
    by_contra hlt
    rw [prepareTrace, List.getElem?_append_left (by omega)] at hj
    obtain ⟨x, y, hxy⟩ := hA _ (List.getElem?_mem hj)
    cases hxy
  omega

/-- Witness for C6: with one symbol configured for two timeframes, the seed
at position 1 precedes the subscribe at position 2. -/
theorem c6_seed_before_subscribe_witness :
    (prepareTrace [("BTCUSDT", (["1m", "5m"], []))])[1]? =
      some (Event.seed "BTCUSDT" "5m") ∧
    (prepareTrace [("BTCUSDT", (["1m", "5m"], []))])[2]? =
      some (Event.subscribe "BTCUSDT" (some "Min1")) ∧
    (1 : Nat) < 2 :=
  ⟨by decide, by decide,
    c6_seed_before_subscribe [("BTCUSDT", (["1m", "5m"], []))] 1 2
      "BTCUSDT" "5m" "BTCUSDT" (some "Min1") (by decide) (by decide)⟩

/-- C10: the live handler stores (`liveRow`) and emits (`pushedCandle`) the
candle's open, high, low, close and volume exactly as received, with no
`astype(float)` coercion, and derives its open_datetime index from the
seconds unit (`1000 * t` model milliseconds), while `__parse_dataframe`
float-coerces every seeded value and derives the index from the
milliseconds unit (`t`); consequently a seeded row and a live candle with
the same nonzero open_timestamp land at different index values, and the
merge keeps both rows side by side. -/
theorem c10_dual_normalization (d : Store) (symbol timeframe : String)
    (kl : Kline) (rk : RawKline) :
    (handle_data_event d symbol timeframe kl).2 = pushedCandle kl ∧
    pushedCandle kl = ⟨kl.t, 1000 * kl.t, kl.o, kl.h, kl.l, kl.c, kl.v⟩ ∧
    liveRow kl = ⟨1000 * kl.t, kl.t, Val.raw kl.o, Val.raw kl.h, Val.raw kl.l,
      Val.raw kl.c, Val.raw kl.v⟩ ∧
    parse_dataframe [rk] = [⟨rk.t, rk.t, Val.float rk.o, Val.float rk.h,
      Val.float rk.l, Val.float rk.c, Val.float rk.v⟩] ∧
    (rk.t = kl.t → kl.t ≠ 0 →
      merge_step (some (parse_dataframe [rk])) kl =
        parse_dataframe [rk] ++ [liveRow kl]) := by
  refine ⟨rfl, rfl, rfl, rfl, ?_⟩
  intro h1 h2
  show tail 500 (combineFirst (liveRow kl) (parse_dataframe [rk])) = _
  rw [combineFirst_of_forall_lt (by
    intro x hx
    rcases List.mem_singleton.1 hx with rfl
    show rk.t < 1000 * kl.t
    omega)]
  exact tail_eq_of_le (by simp [parse_dataframe])

/-- Witness for C10: at timestamp 100 the seeded row (index 100) and the
live row (index 100000) coexist after the merge. -/
theorem c10_dual_normalization_witness :
    merge_step (some (parse_dataframe [⟨100, "1", "2", "0.5", "1.5", "10"⟩]))
      ⟨100, "1", "2", "0.5", "1.6", "11"⟩ =
      parse_dataframe [⟨100, "1", "2", "0.5", "1.5", "10"⟩] ++
        [liveRow ⟨100, "1", "2", "0.5", "1.6", "11"⟩] :=
  (c10_dual_normalization [] "BTCUSDT" "1m" ⟨100, "1", "2", "0.5", "1.6", "11"⟩
    ⟨100, "1", "2", "0.5", "1.5", "10"⟩).2.2.2.2 rfl (by decide)

end MexcSpotProxy
